import Mathlib

/-!
Shallow embedding of `src/probot-app/index.js` (a Probot GitHub app).

External calls (`octokit.pulls.listFiles`, `octokit.repos.getContent`,
`axios.post`, `octokit.issues.createComment`,
`octokit.pulls.createReplyForReviewComment`) are modelled as oracle
functions in an `Api` structure, each returning `Except Err _` to model
JavaScript exceptions.  Every embedded function additionally returns the
list of external calls it performed (a `List Call`), so that properties
such as "no network call is made" or "exactly two listing calls are
issued" are stated about that trace.  The unbounded `while (true)`
pagination loop of `getPrFiles` is given a fuel parameter; running out of
fuel yields `none`, and theorems about the loop hypothesise a completed
run (`= some _`).
-/

namespace ContextWizard

/-- Errors thrown by external calls (network failures, API errors). -/
abbrev Err := String

/-- Response body of the content retrieval API (`octokit.repos.getContent`):
`isDirectory` models `Array.isArray(data)`, `content` models `data.content`
(absent or a string; `""` is falsy in JavaScript), `encoding` models
`data.encoding`. -/
structure ContentData where
  isDirectory : Bool
  content : Option String
  encoding : Option String
  deriving DecidableEq

/-- Response body of the backend (`res.data`): only the `comment` field is read. -/
structure BackendData where
  comment : Option String
  deriving DecidableEq

/-- One element of `res.data` from `octokit.pulls.listFiles`: the upstream
per-file metadata.  `previous_filename` is present for renamed files in the
GitHub API payload; the code never reads it. -/
structure RawFile where
  filename : String
  status : String
  additions : Nat
  deletions : Nat
  changes : Nat
  patch : Option String
  previous_filename : Option String
  deriving DecidableEq

/-- An assembled changed-file entry as pushed onto `files` by `getPrFiles`. -/
structure ChangedFile where
  filename : String
  status : String
  additions : Nat
  deletions : Nat
  changes : Nat
  patch : Option String
  base_content : Option String
  head_content : Option String
  deriving DecidableEq

/-- The `payloadForBackend` object built by the two handlers. -/
structure BackendPayload where
  kind : String
  review_body : Option String
  review_state : Option String
  comment_body : Option String
  comment_path : Option String
  comment_diff_hunk : Option String
  comment_position : Option Nat
  comment_id : Option Nat
  reviewer_login : Option String
  pr_number : Nat
  pr_title : Option String
  pr_body : Option String
  pr_author_login : Option String
  repo_full_name : String
  repo_owner : String
  repo_name : String
  files : List ChangedFile
  deriving DecidableEq

/-- `context.payload.sender`: `type` models `sender.type`, `login` models
`sender.login` (each possibly absent). -/
structure Sender where
  type : Option String
  login : Option String
  deriving DecidableEq

/-- `context.payload.review`: `userLogin` models `review.user && review.user.login`. -/
structure Review where
  body : Option String
  state : Option String
  userLogin : Option String
  deriving DecidableEq

/-- `context.payload.comment` (an inline review comment):
`userLogin` models `comment.user && comment.user.login`. -/
structure InlineComment where
  body : Option String
  path : String
  diff_hunk : String
  position : Option Nat
  id : Nat
  userLogin : Option String
  deriving DecidableEq

/-- `context.payload.pull_request`: `userLogin` models `pr.user && pr.user.login`. -/
structure PullRequest where
  number : Nat
  title : Option String
  body : Option String
  userLogin : Option String
  baseSha : String
  headSha : String
  deriving DecidableEq

/-- `context.payload.repository`. -/
structure Repo where
  ownerLogin : String
  name : String
  fullName : String
  deriving DecidableEq

/-- The webhook payload of a `pull_request_review.submitted` event. -/
structure ReviewEvent where
  sender : Option Sender
  review : Review
  pr : PullRequest
  repo : Repo

/-- The webhook payload of a `pull_request_review_comment.created` event. -/
structure CommentEvent where
  sender : Option Sender
  comment : InlineComment
  pr : PullRequest
  repo : Repo

/-- An observable external call, recorded in order of execution. -/
inductive Call where
  | listFiles (page : Nat)
  | getContent (path ref : String)
  | backendPost (payload : BackendPayload)
  | createComment (owner repo : String) (issueNumber : Nat) (body : String)
  | createReply (owner repo : String) (prNumber commentId : Nat) (body : String)
  deriving DecidableEq

/-- Oracle for the external world: what every external call would answer.
`owner`, `repo` and the PR number are fixed parameters of each JavaScript
call site and are folded into the oracle.  `decode` models
`Buffer.from(content, encoding).toString("utf8")` (total: node's decoding
never throws on a string input).  `backendUrl` models
`process.env.BACKEND_URL` (absent, or a string, where `""` is falsy). -/
structure Api where
  listFiles : Nat → Except Err (List RawFile)
  getContent : String → String → Except Err ContentData
  decode : String → String → String
  backendUrl : Option String
  backendPost : BackendPayload → Except Err BackendData
  createComment : String → String → Nat → String → Except Err Unit
  createReply : String → String → Nat → Nat → String → Except Err Unit

/-- JavaScript falsiness of an optional string: `undefined`/`null` and `""`. -/
def strFalsy : Option String → Bool
  | none => true
  | some s => s = ""

/-- `!s.trim()` in JavaScript: the string is empty or consists only of
whitespace, i.e. trimming leaves the empty (falsy) string. -/
def isBlank (s : String) : Bool := s.data.all Char.isWhitespace

/-- `s.endsWith(suffix)` in JavaScript, on the underlying character lists. -/
def jsEndsWith (s suffix : String) : Bool := suffix.data.isSuffixOf s.data

/-- `x || null` for an optional string field (used for `f.patch || null`). -/
def jsOrNull : Option String → Option String
  | none => none
  | some s => if s = "" then none else some s

/-- `data.encoding || "base64"`. -/
def encodingOrDefault : Option String → String
  | none => "base64"
  | some e => if e = "" then "base64" else e

/-- `Except.isOk` spelled out locally. -/
def isOkE {α : Type} : Except Err α → Bool
  | .ok _ => true
  | .error _ => false

/-- Embedding of `getFileContent(context, owner, repo, path, ref)`:
the try/catch converts any thrown error to `null`; a directory listing
(`Array.isArray(data)`) or a falsy `data.content` also yields `null`;
otherwise the content is decoded.  The function's JavaScript contract is
that it never throws, which the return type `Option String` reflects. -/
def getFileContent (api : Api) (path ref : String) : Option String × List Call :=
  let value :=
    match api.getContent path ref with
    | .error _ => none
    | .ok data =>
      if data.isDirectory || strFalsy data.content then none
      else some (api.decode (encodingOrDefault data.encoding) (data.content.getD ""))
  (value, [Call.getContent path ref])

/-- Body of the `for (const f of res.data)` loop in `getPrFiles`:
assembles one `ChangedFile` from one raw entry. -/
def processFile (api : Api) (baseSha headSha : String) (f : RawFile) :
    ChangedFile × List Call :=
  let bc := if f.status = "added" then (none, []) else getFileContent api f.filename baseSha
  let hc := if f.status = "removed" then (none, []) else getFileContent api f.filename headSha
  ({ filename := f.filename
     status := f.status
     additions := f.additions
     deletions := f.deletions
     changes := f.changes
     patch := jsOrNull f.patch
     base_content := bc.1
     head_content := hc.1 }, bc.2 ++ hc.2)

/-- Processes one page's entries in order. -/
def processFiles (api : Api) (baseSha headSha : String) :
    List RawFile → List ChangedFile × List Call
  | [] => ([], [])
  | f :: rest =>
    let c := processFile api baseSha headSha f
    let cs := processFiles api baseSha headSha rest
    (c.1 :: cs.1, c.2 ++ cs.2)

/-- The `while (true)` pagination loop of `getPrFiles`, with fuel.
Mirrors the source: list the page; an error propagates; an empty page
breaks; otherwise process the entries, then break if the page was short
(`< 100`), else continue with `page + 1`. -/
def getPrFilesLoop (api : Api) (baseSha headSha : String) :
    Nat → Nat → List ChangedFile → List Call →
    Option (Except Err (List ChangedFile) × List Call)
  | 0, _, _, _ => none
  | fuel + 1, page, acc, tr =>
    match api.listFiles page with
    | .error e => some (.error e, tr ++ [Call.listFiles page])
    | .ok fs =>
      let tr1 := tr ++ [Call.listFiles page]
      if fs.length = 0 then some (.ok acc, tr1)
      else
        let pcs := processFiles api baseSha headSha fs
        if fs.length < 100 then some (.ok (acc ++ pcs.1), tr1 ++ pcs.2)
        else getPrFilesLoop api baseSha headSha fuel (page + 1) (acc ++ pcs.1) (tr1 ++ pcs.2)

/-- Embedding of `getPrFiles(context, owner, repo, prNumber, baseSha, headSha)`. -/
def getPrFiles (api : Api) (baseSha headSha : String) (fuel : Nat) :
    Option (Except Err (List ChangedFile) × List Call) :=
  getPrFilesLoop api baseSha headSha fuel 1 [] []

/-- Embedding of `isFromBot(context)`. -/
def isFromBot (sender : Option Sender) : Bool :=
  match sender with
  | none => false
  | some s =>
    if s.type = some "Bot" then true
    else
      match s.login with
      | none => false
      | some l => if l = "" then false else jsEndsWith l "[bot]"

/-- Embedding of `callBackend(context, payloadForBackend)`: returns `null`
when `BACKEND_URL` is unset (no request is made), when the request throws,
or when `res.data.comment` is falsy or whitespace-only
(`!commentBody || !commentBody.trim()`); otherwise the comment verbatim. -/
def callBackend (api : Api) (payload : BackendPayload) : Option String × List Call :=
  match api.backendUrl with
  | none => (none, [])
  | some url =>
    if url = "" then (none, [])
    else
      match api.backendPost payload with
      | .error _ => (none, [Call.backendPost payload])
      | .ok data =>
        match data.comment with
        | none => (none, [Call.backendPost payload])
        | some c =>
          if c = "" then (none, [Call.backendPost payload])
          else if isBlank c then (none, [Call.backendPost payload])
          else (some c, [Call.backendPost payload])

/-- The `payloadForBackend` of the `pull_request_review.submitted` handler. -/
def mkReviewPayload (ev : ReviewEvent) (reviewBody : String)
    (files : List ChangedFile) : BackendPayload :=
  { kind := "review"
    review_body := some reviewBody
    review_state := ev.review.state
    comment_body := none
    comment_path := none
    comment_diff_hunk := none
    comment_position := none
    comment_id := none
    reviewer_login := ev.review.userLogin
    pr_number := ev.pr.number
    pr_title := ev.pr.title
    pr_body := ev.pr.body
    pr_author_login := ev.pr.userLogin
    repo_full_name := ev.repo.fullName
    repo_owner := ev.repo.ownerLogin
    repo_name := ev.repo.name
    files := files }

/-- The `payloadForBackend` of the `pull_request_review_comment.created` handler. -/
def mkCommentPayload (ev : CommentEvent) (commentBody : String)
    (files : List ChangedFile) : BackendPayload :=
  { kind := "review_comment"
    review_body := none
    review_state := none
    comment_body := some commentBody
    comment_path := some ev.comment.path
    comment_diff_hunk := some ev.comment.diff_hunk
    comment_position := ev.comment.position
    comment_id := some ev.comment.id
    reviewer_login := ev.comment.userLogin
    pr_number := ev.pr.number
    pr_title := ev.pr.title
    pr_body := ev.pr.body
    pr_author_login := ev.pr.userLogin
    repo_full_name := ev.repo.fullName
    repo_owner := ev.repo.ownerLogin
    repo_name := ev.repo.name
    files := files }

/-- Body of the `pull_request_review.submitted` handler, i.e. the contents
of its `try` block: may end in an uncaught error (from `getPrFiles` or the
comment-posting call).  `.ok v` carries the posted comment body, if any. -/
def handleReviewBody (api : Api) (ev : ReviewEvent) (fuel : Nat) :
    Option (Except Err (Option String) × List Call) :=
  if isFromBot ev.sender then some (.ok none, [])
  else
    let reviewBody := ev.review.body.getD ""
    if isBlank reviewBody then some (.ok none, [])
    else
      match getPrFiles api ev.pr.baseSha ev.pr.headSha fuel with
      | none => none
      | some (.error e, tr) => some (.error e, tr)
      | some (.ok files, tr) =>
        let payload := mkReviewPayload ev reviewBody files
        let cb := callBackend api payload
        match cb.1 with
        | none => some (.ok none, tr ++ cb.2)
        | some body =>
          let wr := Call.createComment ev.repo.ownerLogin ev.repo.name ev.pr.number body
          match api.createComment ev.repo.ownerLogin ev.repo.name ev.pr.number body with
          | .error e => some (.error e, tr ++ cb.2 ++ [wr])
          | .ok _ => some (.ok (some body), tr ++ cb.2 ++ [wr])

/-- The `pull_request_review.submitted` handler as the webhook dispatcher
sees it: the catch block logs and swallows any error from the body
(`// do not rethrow`), so the result the dispatcher observes is `.ok`. -/
def handleReview (api : Api) (ev : ReviewEvent) (fuel : Nat) :
    Option (Except Err (Option String) × List Call) :=
  (handleReviewBody api ev fuel).map fun r =>
    match r.1 with
    | .error _ => (.ok none, r.2)
    | .ok v => (.ok v, r.2)

/-- Body of the `pull_request_review_comment.created` handler (its `try` block). -/
def handleCommentBody (api : Api) (ev : CommentEvent) (fuel : Nat) :
    Option (Except Err (Option String) × List Call) :=
  if isFromBot ev.sender then some (.ok none, [])
  else
    let commentBody := ev.comment.body.getD ""
    if isBlank commentBody then some (.ok none, [])
    else
      match getPrFiles api ev.pr.baseSha ev.pr.headSha fuel with
      | none => none
      | some (.error e, tr) => some (.error e, tr)
      | some (.ok files, tr) =>
        let payload := mkCommentPayload ev commentBody files
        let cb := callBackend api payload
        match cb.1 with
        | none => some (.ok none, tr ++ cb.2)
        | some body =>
          let wr := Call.createReply ev.repo.ownerLogin ev.repo.name ev.pr.number
            ev.comment.id body
          match api.createReply ev.repo.ownerLogin ev.repo.name ev.pr.number
              ev.comment.id body with
          | .error e => some (.error e, tr ++ cb.2 ++ [wr])
          | .ok _ => some (.ok (some body), tr ++ cb.2 ++ [wr])

/-- The `pull_request_review_comment.created` handler as the dispatcher
sees it: the catch block swallows any error from the body. -/
def handleComment (api : Api) (ev : CommentEvent) (fuel : Nat) :
    Option (Except Err (Option String) × List Call) :=
  (handleCommentBody api ev fuel).map fun r =>
    match r.1 with
    | .error _ => (.ok none, r.2)
    | .ok v => (.ok v, r.2)

/-! Concrete fixtures used by witnesses. -/

/-- An oracle where every external call fails and no backend URL is set. -/
def apiErr : Api :=
  { listFiles := fun _ => .error "down"
    getContent := fun _ _ => .error "down"
    decode := fun _ c => c
    backendUrl := none
    backendPost := fun _ => .error "down"
    createComment := fun _ _ _ _ => .error "down"
    createReply := fun _ _ _ _ _ => .error "down" }

/-- A content oracle that always answers with a small text file. -/
def okContentFn : String → String → Except Err ContentData :=
  fun _ _ => .ok { isDirectory := false, content := some "line", encoding := some "utf8" }

/-- An oracle answering a successful single-file content lookup whose
`content` field is the empty string. -/
def apiEmptyFile : Api :=
  { apiErr with getContent := fun _ _ => .ok ⟨false, some "", none⟩ }

def renamedRaw : RawFile :=
  { filename := "new.txt", status := "renamed", additions := 1, deletions := 1,
    changes := 2, patch := some "@@ hunk", previous_filename := some "old.txt" }

/-- C6: `isFromBot` is `false` with no sender, `true` when the sender's
declared type equals `"Bot"`, `true` when the sender's login ends with the
literal suffix `"[bot]"`, and `false` in every other case. -/
theorem isFromBot_cases :
    isFromBot none = false ∧
    (∀ sd : Sender, sd.type = some "Bot" → isFromBot (some sd) = true) ∧
    (∀ (sd : Sender) (l : String), sd.login = some l → jsEndsWith l "[bot]" = true →
      isFromBot (some sd) = true) ∧
    (∀ sd : Sender, sd.type ≠ some "Bot" →
      (∀ l, sd.login = some l → jsEndsWith l "[bot]" = false) →
      isFromBot (some sd) = false) := by
  refine ⟨rfl, ?_, ?_, ?_⟩
  · intro sd htype
    simp [isFromBot, htype]
  · intro sd l hlogin hend
    by_cases htype : sd.type = some "Bot"
    · simp [isFromBot, htype]
    · have hne : l ≠ "" := by
        intro h0
        rw [h0] at hend
        exact absurd hend (by decide)
      simp [isFromBot, htype, hlogin, hne, hend]
  · intro sd htype hlogin
    cases hsl : sd.login with
    | none => simp [isFromBot, htype, hsl]
    | some l =>
      have := hlogin l hsl
      by_cases h0 : l = "" <;> simp [isFromBot, htype, hsl, h0, this]

theorem isFromBot_cases_witness :
    isFromBot (some { type := some "Bot", login := some "dependabot[bot]" }) = true :=
  isFromBot_cases.2.1 { type := some "Bot", login := some "dependabot[bot]" } rfl

/-- C7: `getFileContent` never throws (it returns an `Option`, never an
exception): a transport or not-found error, a directory listing, and an
entry without retrievable content each become a `none` result. -/
theorem getFileContent_converts_failures_to_none (api : Api) (p r : String) :
    ((∃ e, api.getContent p r = Except.error e) → (getFileContent api p r).1 = none) ∧
    (∀ d, api.getContent p r = Except.ok d → d.isDirectory = true →
      (getFileContent api p r).1 = none) ∧
    (∀ d, api.getContent p r = Except.ok d → d.content = none →
      (getFileContent api p r).1 = none) := by
  refine ⟨?_, ?_, ?_⟩
  · rintro ⟨e, he⟩
    simp [getFileContent, he]
  · intro d hd hdir
    simp [getFileContent, hd, hdir]
  · intro d hd hc
    simp [getFileContent, hd, hc, strFalsy]

theorem getFileContent_converts_failures_to_none_witness :
    (getFileContent apiErr "a.txt" "sha1").1 = none :=
  (getFileContent_converts_failures_to_none apiErr "a.txt" "sha1").1 ⟨"down", rfl⟩

/-- C9: a successful single-file response whose `content` field is the
empty string fails the `!data.content` falsiness check, so
`getFileContent` returns `none` rather than the empty text. -/
theorem getFileContent_empty_content (api : Api) (p r : String) (d : ContentData)
    (hok : api.getContent p r = Except.ok d) (hdir : d.isDirectory = false)
    (hc : d.content = some "") :
    (getFileContent api p r).1 = none := by
  simp [getFileContent, hok, hdir, hc, strFalsy]

theorem getFileContent_empty_content_witness :
    (getFileContent apiEmptyFile "a.txt" "sha1").1 = none :=
  getFileContent_empty_content apiEmptyFile "a.txt" "sha1" ⟨false, some "", none⟩ rfl rfl rfl

/-- C10: both content lookups of an assembled entry use its current
`filename` — for an entry that is neither added nor removed (e.g. a
renamed one) the two lookups are `filename@baseSha` and
`filename@headSha` — and the `previous_filename` field is never
consulted: replacing it leaves the result unchanged. -/
theorem processFile_uses_current_filename (api : Api) (b h : String) (f : RawFile) :
    (f.status ≠ "added" → f.status ≠ "removed" →
      (processFile api b h f).2 =
        [Call.getContent f.filename b, Call.getContent f.filename h]) ∧
    (∀ p, processFile api b h { f with previous_filename := p } =
      processFile api b h f) := by
  constructor
  · intro ha hr
    simp [processFile, ha, hr, getFileContent]
  · intro p
    cases f
    rfl

theorem processFile_uses_current_filename_witness :
    (processFile apiErr "base" "head" renamedRaw).2 =
      [Call.getContent "new.txt" "base", Call.getContent "new.txt" "head"] :=
  (processFile_uses_current_filename apiErr "base" "head" renamedRaw).1
    (by decide) (by decide)

/-- One assembled entry satisfies the added/removed content invariant. -/
theorem processFile_invariant (api : Api) (b h : String) (f : RawFile) :
    ((processFile api b h f).1.status = "added" →
      (processFile api b h f).1.base_content = none) ∧
    ((processFile api b h f).1.status = "removed" →
      (processFile api b h f).1.head_content = none) := by
  by_cases ha : f.status = "added" <;> by_cases hr : f.status = "removed" <;>
    simp [processFile, ha, hr]

/-- All entries assembled from one page satisfy the content invariant. -/
theorem processFiles_invariant (api : Api) (b h : String) :
    ∀ (fs : List RawFile), ∀ cf ∈ (processFiles api b h fs).1,
      (cf.status = "added" → cf.base_content = none) ∧
      (cf.status = "removed" → cf.head_content = none) := by
  intro fs
  induction fs with
  | nil => intro cf hcf; simp [processFiles] at hcf
  | cons f rest ih =>
    intro cf hcf
    simp only [processFiles, List.mem_cons] at hcf
    rcases hcf with hcf | hcf
    · subst hcf
      exact processFile_invariant api b h f
    · exact ih cf hcf

/-- The pagination loop preserves the content invariant of the accumulator. -/
theorem getPrFilesLoop_invariant (api : Api) (b h : String) :
    ∀ (fuel page : Nat) (acc : List ChangedFile) (tr : List Call)
      (files : List ChangedFile) (tr' : List Call),
      (∀ cf ∈ acc, (cf.status = "added" → cf.base_content = none) ∧
        (cf.status = "removed" → cf.head_content = none)) →
      getPrFilesLoop api b h fuel page acc tr = some (.ok files, tr') →
      ∀ cf ∈ files, (cf.status = "added" → cf.base_content = none) ∧
        (cf.status = "removed" → cf.head_content = none) := by
  intro fuel
  induction fuel with
  | zero =>
    intro page acc tr files tr' hacc hrun
    simp [getPrFilesLoop] at hrun
  | succ n ih =>
    intro page acc tr files tr' hacc hrun
    unfold getPrFilesLoop at hrun
    cases hl : api.listFiles page with
    | error e => simp [hl] at hrun
    | ok fs =>
      simp only [hl] at hrun
      by_cases hz : fs.length = 0
      · simp [hz] at hrun
        obtain ⟨h1, _⟩ := hrun
        subst h1
        exact hacc
      · simp only [hz, if_false] at hrun
        by_cases hlt : fs.length < 100
        · simp [hlt] at hrun
          obtain ⟨h1, _⟩ := hrun
          subst h1
          intro cf hcf
          rcases List.mem_append.mp hcf with hm | hm
          · exact hacc cf hm
          · exact processFiles_invariant api b h fs cf hm
        · simp only [hlt, if_false] at hrun
          refine ih (page + 1) _ _ files tr' ?_ hrun
          intro cf hcf
          rcases List.mem_append.mp hcf with hm | hm
          · exact hacc cf hm
          · exact processFiles_invariant api b h fs cf hm

/-- C1: in every completed run of `getPrFiles`, every assembled entry with
status `"added"` has `base_content = none` and every entry with status
`"removed"` has `head_content = none`, across all pages. -/
theorem getPrFiles_added_removed_invariant (api : Api) (b h : String) (fuel : Nat)
    (files : List ChangedFile) (tr : List Call)
    (hrun : getPrFiles api b h fuel = some (.ok files, tr)) :
    ∀ cf ∈ files, (cf.status = "added" → cf.base_content = none) ∧
      (cf.status = "removed" → cf.head_content = none) :=
  getPrFilesLoop_invariant api b h fuel 1 [] [] files tr (by simp) hrun

def addedRaw : RawFile :=
  { filename := "a.txt", status := "added", additions := 3, deletions := 0,
    changes := 3, patch := some "@@ hunk", previous_filename := none }

def removedRaw : RawFile :=
  { filename := "r.txt", status := "removed", additions := 0, deletions := 4,
    changes := 4, patch := some "@@ hunk", previous_filename := none }

/-- One page with an added and a removed file; working content lookups. -/
def apiOnePage : Api :=
  { apiErr with
    listFiles := fun p => .ok (if p = 1 then [addedRaw, removedRaw] else [])
    getContent := okContentFn }

def cfAddedW : ChangedFile :=
  { filename := "a.txt", status := "added", additions := 3, deletions := 0,
    changes := 3, patch := some "@@ hunk", base_content := none,
    head_content := some "line" }

def cfRemovedW : ChangedFile :=
  { filename := "r.txt", status := "removed", additions := 0, deletions := 4,
    changes := 4, patch := some "@@ hunk", base_content := some "line",
    head_content := none }

theorem getPrFiles_added_removed_invariant_witness :
    cfAddedW.base_content = none ∧ cfRemovedW.head_content = none := by
  have h := getPrFiles_added_removed_invariant apiOnePage "b" "h" 2 [cfAddedW, cfRemovedW]
    [Call.listFiles 1, Call.getContent "a.txt" "h", Call.getContent "r.txt" "b"] rfl
  exact ⟨(h cfAddedW (by simp)).1 rfl, (h cfRemovedW (by simp)).2 rfl⟩

/-- C3: both event handlers always complete without raising: every error
thrown in the body — including a propagated file-listing error and a
comment-posting failure — is caught at the handler boundary and swallowed,
so the dispatcher always observes a successful completion. -/
theorem handlers_never_raise (api : Api) (fuel : Nat) :
    (∀ (ev : ReviewEvent) (out : Except Err (Option String)) (tr : List Call),
      handleReview api ev fuel = some (out, tr) → isOkE out = true) ∧
    (∀ (ev : CommentEvent) (out : Except Err (Option String)) (tr : List Call),
      handleComment api ev fuel = some (out, tr) → isOkE out = true) := by
  constructor
  · intro ev out tr hrun
    unfold handleReview at hrun
    cases hb : handleReviewBody api ev fuel with
    | none => simp [hb] at hrun
    | some r =>
      simp only [hb, Option.map_some] at hrun
      cases hr : r.1 <;> simp [hr] at hrun <;> rw [← hrun.1] <;> rfl
  · intro ev out tr hrun
    unfold handleComment at hrun
    cases hb : handleCommentBody api ev fuel with
    | none => simp [hb] at hrun
    | some r =>
      simp only [hb, Option.map_some] at hrun
      cases hr : r.1 <;> simp [hr] at hrun <;> rw [← hrun.1] <;> rfl

def botSender : Sender := { type := some "Bot", login := some "dependabot[bot]" }

def samplePR : PullRequest :=
  { number := 7, title := some "Title", body := some "Body", userLogin := some "alice",
    baseSha := "base", headSha := "head" }

def sampleRepo : Repo := { ownerLogin := "octo", name := "demo", fullName := "octo/demo" }

def botReviewEvent : ReviewEvent :=
  { sender := some botSender
    review := { body := some "Nice work", state := some "approved", userLogin := some "bob" }
    pr := samplePR
    repo := sampleRepo }

def botCommentEvent : CommentEvent :=
  { sender := some botSender
    comment := { body := some "hmm", path := "a.js", diff_hunk := "@@ hunk",
                 position := some 5, id := 42, userLogin := some "bob" }
    pr := samplePR
    repo := sampleRepo }

theorem handlers_never_raise_witness :
    isOkE (Except.ok (none : Option String) : Except Err (Option String)) = true :=
  (handlers_never_raise apiErr 0).1 botReviewEvent (.ok none) [] rfl

/-- C5: when the sender is a bot, or the triggering text body is empty or
whitespace-only, the handler takes no action: it completes with an empty
call trace — no backend call and no GitHub write, and the empty-body exit
happens before any network call. -/
theorem bot_or_empty_no_action (api : Api) (fuel : Nat) :
    (∀ ev : ReviewEvent,
      isFromBot ev.sender = true ∨ isBlank (ev.review.body.getD "") = true →
      handleReview api ev fuel = some (.ok none, [])) ∧
    (∀ ev : CommentEvent,
      isFromBot ev.sender = true ∨ isBlank (ev.comment.body.getD "") = true →
      handleComment api ev fuel = some (.ok none, [])) := by
  constructor
  · intro ev hcase
    unfold handleReview handleReviewBody
    rcases hcase with hbot | hbody
    · simp [hbot]
    · by_cases hbot : isFromBot ev.sender <;> simp [hbot, hbody]
  · intro ev hcase
    unfold handleComment handleCommentBody
    rcases hcase with hbot | hbody
    · simp [hbot]
    · by_cases hbot : isFromBot ev.sender <;> simp [hbot, hbody]

theorem bot_or_empty_no_action_witness :
    handleReview apiErr botReviewEvent 0 = some (.ok none, []) ∧
    handleComment apiErr botCommentEvent 0 = some (.ok none, []) :=
  ⟨(bot_or_empty_no_action apiErr 0).1 botReviewEvent (Or.inl (by decide)),
   (bot_or_empty_no_action apiErr 0).2 botCommentEvent (Or.inl (by decide))⟩

/-- With every content lookup failing, an assembled entry has both
content fields `none` (the failure is absorbed inside `getFileContent`). -/
theorem processFile_content_error (api : Api) (b h : String) (f : RawFile)
    (herr : ∀ p r, ∃ ce, api.getContent p r = Except.error ce) :
    (processFile api b h f).1.base_content = none ∧
    (processFile api b h f).1.head_content = none := by
  obtain ⟨e1, he1⟩ := herr f.filename b
  obtain ⟨e2, he2⟩ := herr f.filename h
  by_cases ha : f.status = "added" <;> by_cases hr : f.status = "removed" <;>
    simp [processFile, ha, hr, getFileContent, he1, he2]

/-- With every content lookup failing, every entry of a processed page has
both content fields `none`. -/
theorem processFiles_content_error (api : Api) (b h : String)
    (herr : ∀ p r, ∃ ce, api.getContent p r = Except.error ce) :
    ∀ (fs : List RawFile), ∀ cf ∈ (processFiles api b h fs).1,
      cf.base_content = none ∧ cf.head_content = none := by
  intro fs
  induction fs with
  | nil => intro cf hcf; simp [processFiles] at hcf
  | cons f rest ih =>
    intro cf hcf
    simp only [processFiles, List.mem_cons] at hcf
    rcases hcf with hcf | hcf
    · subst hcf
      exact processFile_content_error api b h f herr
    · exact ih cf hcf

/-- With listing calls succeeding and every content lookup failing, a
completed run of the pagination loop succeeds and every assembled entry
has both content fields `none`. -/
theorem getPrFilesLoop_content_error (api : Api) (b h : String)
    (hok : ∀ page, ∃ fs, api.listFiles page = Except.ok fs)
    (herr : ∀ p r, ∃ ce, api.getContent p r = Except.error ce) :
    ∀ (fuel page : Nat) (acc : List ChangedFile) (tr : List Call)
      (res : Except Err (List ChangedFile)) (tr' : List Call),
      (∀ cf ∈ acc, cf.base_content = none ∧ cf.head_content = none) →
      getPrFilesLoop api b h fuel page acc tr = some (res, tr') →
      isOkE res = true ∧ ∀ files, res = .ok files →
        ∀ cf ∈ files, cf.base_content = none ∧ cf.head_content = none := by
  intro fuel
  induction fuel with
  | zero =>
    intro page acc tr res tr' hacc hrun
    simp [getPrFilesLoop] at hrun
  | succ n ih =>
    intro page acc tr res tr' hacc hrun
    unfold getPrFilesLoop at hrun
    obtain ⟨fs, hfs⟩ := hok page
    rw [hfs] at hrun
    simp only at hrun
    by_cases hz : fs.length = 0
    · simp [hz] at hrun
      obtain ⟨h1, _⟩ := hrun
      subst h1
      refine ⟨rfl, ?_⟩
      intro files hfiles
      cases hfiles
      exact hacc
    · simp only [hz, if_false] at hrun
      by_cases hlt : fs.length < 100
      · simp [hlt] at hrun
        obtain ⟨h1, _⟩ := hrun
        subst h1
        refine ⟨rfl, ?_⟩
        intro files hfiles
        cases hfiles
        intro cf hcf
        rcases List.mem_append.mp hcf with hm | hm
        · exact hacc cf hm
        · exact processFiles_content_error api b h herr fs cf hm
      · simp only [hlt, if_false] at hrun
        refine ih (page + 1) _ _ res tr' ?_ hrun
        intro cf hcf
        rcases List.mem_append.mp hcf with hm | hm
        · exact hacc cf hm
        · exact processFiles_content_error api b h herr fs cf hm

/-- C8: a failure of the paginated list-files call is not caught inside
`getPrFiles` and propagates as the thrown error, whereas a failure of an
individual content lookup is absorbed (that content field becomes `none`)
and processing continues: with all content lookups failing, a completed
run still succeeds and every entry — not just the first — is assembled
with `none` contents. -/
theorem listing_error_propagates_content_errors_absorbed :
    (∀ (api : Api) (b h : String) (fuel : Nat) (e : Err),
      api.listFiles 1 = Except.error e →
      getPrFiles api b h (fuel + 1) = some (.error e, [Call.listFiles 1])) ∧
    (∀ (api : Api) (b h : String) (fuel : Nat) (res : Except Err (List ChangedFile))
      (tr : List Call),
      (∀ page, ∃ fs, api.listFiles page = Except.ok fs) →
      (∀ p r, ∃ ce, api.getContent p r = Except.error ce) →
      getPrFiles api b h fuel = some (res, tr) →
      isOkE res = true ∧ ∀ files, res = .ok files →
        ∀ cf ∈ files, cf.base_content = none ∧ cf.head_content = none) := by
  constructor
  · intro api b h fuel e hlist
    unfold getPrFiles getPrFilesLoop
    rw [hlist]
    simp
  · intro api b h fuel res tr hok herr hrun
    exact getPrFilesLoop_content_error api b h hok herr fuel 1 [] [] res tr
      (by simp) hrun

def modifiedRaw1 : RawFile :=
  { filename := "m1.txt", status := "modified", additions := 1, deletions := 1,
    changes := 2, patch := some "@@ hunk", previous_filename := none }

def modifiedRaw2 : RawFile :=
  { filename := "m2.txt", status := "modified", additions := 2, deletions := 0,
    changes := 2, patch := none, previous_filename := none }

/-- Listing succeeds with one two-file page; every content lookup fails. -/
def apiContentDown : Api :=
  { apiErr with
    listFiles := fun p => .ok (if p = 1 then [modifiedRaw1, modifiedRaw2] else []) }

def cfM1Down : ChangedFile :=
  { filename := "m1.txt", status := "modified", additions := 1, deletions := 1,
    changes := 2, patch := some "@@ hunk", base_content := none, head_content := none }

def cfM2Down : ChangedFile :=
  { filename := "m2.txt", status := "modified", additions := 2, deletions := 0,
    changes := 2, patch := none, base_content := none, head_content := none }

theorem listing_error_propagates_content_errors_absorbed_witness :
    getPrFiles apiErr "base" "head" 1 = some (.error "down", [Call.listFiles 1]) ∧
    isOkE (Except.ok [cfM1Down, cfM2Down] : Except Err (List ChangedFile)) = true ∧
    cfM2Down.base_content = none ∧ cfM2Down.head_content = none := by
  have ha := listing_error_propagates_content_errors_absorbed.1 apiErr "base" "head" 0
    "down" rfl
  have hb := listing_error_propagates_content_errors_absorbed.2 apiContentDown "base"
    "head" 2 (.ok [cfM1Down, cfM2Down])
    [Call.listFiles 1, Call.getContent "m1.txt" "base", Call.getContent "m1.txt" "head",
     Call.getContent "m2.txt" "base", Call.getContent "m2.txt" "head"]
    (fun page => ⟨(if page = 1 then [modifiedRaw1, modifiedRaw2] else []), rfl⟩)
    (fun _ _ => ⟨"down", rfl⟩) rfl
  exact ⟨ha, hb.1, hb.2 [cfM1Down, cfM2Down] rfl cfM2Down (by simp)⟩

def mkRaw (i : Nat) : RawFile :=
  { filename := "f" ++ Nat.repr i, status := "modified", additions := 1, deletions := 1,
    changes := 2, patch := some "@@ hunk", previous_filename := none }

/-- A changed-file listing with `n` distinct entries. -/
def sampleListing (n : Nat) : List RawFile := (List.range n).map mkRaw

/-- The standard paged view the list-files endpoint serves for a fixed
listing: page `p` (1-based) holds entries `(p-1)*100 .. p*100-1`. -/
def pagesOf (l : List RawFile) (page : Nat) : List RawFile :=
  (l.drop ((page - 1) * 100)).take 100

/-- An oracle whose list-files endpoint serves a fixed listing in pages of
up to 100 and whose content lookups succeed. -/
def listingApi (l : List RawFile) : Api :=
  { apiErr with
    listFiles := fun page => .ok (pagesOf l page)
    getContent := okContentFn }

def isListCall : Call → Bool
  | .listFiles _ => true
  | _ => false

/-- Observables of a run of `getPrFiles` against a fixed listing: the
filenames of the assembled entries in order, and the number of list-files
calls issued. -/
def runSummary (l : List RawFile) : Option (Except Err (List String) × Nat) :=
  (getPrFiles (listingApi l) "base" "head" 5).map fun r =>
    (r.1.map (List.map ChangedFile.filename), (r.2.filter isListCall).length)

/-- C2: against listings of exactly 100, 150 and 0 entries, `getPrFiles`
issues 2, 2 and 1 list-files calls respectively and assembles 100, 150 and
0 entries, in the order the source listing returned them (the result's
filenames equal the listing's filenames). -/
theorem getPrFiles_pagination :
    runSummary (sampleListing 100) =
      some (.ok ((sampleListing 100).map RawFile.filename), 2) ∧
    runSummary (sampleListing 150) =
      some (.ok ((sampleListing 150).map RawFile.filename), 2) ∧
    runSummary (sampleListing 0) = some (.ok [], 1) ∧
    (sampleListing 100).length = 100 ∧ (sampleListing 150).length = 150 := by
  refine ⟨?_, ?_, ?_, ?_, ?_⟩ <;> rfl

def isWriteCall : Call → Bool
  | .createComment _ _ _ _ => true
  | .createReply _ _ _ _ _ => true
  | _ => false

/-- The trace of a content lookup holds no GitHub write. -/
theorem getFileContent_no_writes (api : Api) (p r : String) :
    ∀ c ∈ (getFileContent api p r).2, isWriteCall c = false := by
  intro c hc
  simp [getFileContent] at hc
  subst hc
  rfl

/-- The trace of assembling one entry holds no GitHub write. -/
theorem processFile_no_writes (api : Api) (b h : String) (f : RawFile) :
    ∀ c ∈ (processFile api b h f).2, isWriteCall c = false := by
  intro c hc
  simp only [processFile, List.mem_append] at hc
  rcases hc with hc | hc
  · by_cases ha : f.status = "added"
    · rw [if_pos ha] at hc
      simp at hc
    · rw [if_neg ha] at hc
      exact getFileContent_no_writes api f.filename b c hc
  · by_cases hr : f.status = "removed"
    · rw [if_pos hr] at hc
      simp at hc
    · rw [if_neg hr] at hc
      exact getFileContent_no_writes api f.filename h c hc

/-- The trace of assembling one page holds no GitHub write. -/
theorem processFiles_no_writes (api : Api) (b h : String) :
    ∀ (fs : List RawFile), ∀ c ∈ (processFiles api b h fs).2, isWriteCall c = false := by
  intro fs
  induction fs with
  | nil => intro c hc; simp [processFiles] at hc
  | cons f rest ih =>
    intro c hc
    simp only [processFiles, List.mem_append] at hc
    rcases hc with hc | hc
    · exact processFile_no_writes api b h f c hc
    · exact ih c hc

/-- The trace of the pagination loop holds no GitHub write. -/
theorem getPrFilesLoop_no_writes (api : Api) (b h : String) :
    ∀ (fuel page : Nat) (acc : List ChangedFile) (tr : List Call)
      (res : Except Err (List ChangedFile)) (tr' : List Call),
      (∀ c ∈ tr, isWriteCall c = false) →
      getPrFilesLoop api b h fuel page acc tr = some (res, tr') →
      ∀ c ∈ tr', isWriteCall c = false := by
  intro fuel
  induction fuel with
  | zero =>
    intro page acc tr res tr' htr hrun
    simp [getPrFilesLoop] at hrun
  | succ n ih =>
    intro page acc tr res tr' htr hrun
    have htr1 : ∀ c ∈ tr ++ [Call.listFiles page], isWriteCall c = false := by
      intro c hc
      rcases List.mem_append.mp hc with hm | hm
      · exact htr c hm
      · simp at hm
        subst hm
        rfl
    unfold getPrFilesLoop at hrun
    cases hl : api.listFiles page with
    | error e =>
      simp [hl] at hrun
      obtain ⟨_, h2⟩ := hrun
      subst h2
      exact htr1
    | ok fs =>
      simp only [hl] at hrun
      by_cases hz : fs.length = 0
      · simp [hz] at hrun
        obtain ⟨_, h2⟩ := hrun
        subst h2
        exact htr1
      · simp only [hz, if_false] at hrun
        by_cases hlt : fs.length < 100
        · simp [hlt] at hrun
          obtain ⟨_, h2⟩ := hrun
          subst h2
          intro c hc
          rcases List.mem_append.mp hc with hm | hm
          · exact htr c hm
          · rcases List.mem_cons.mp hm with hm | hm
            · subst hm
              rfl
            · exact processFiles_no_writes api b h fs c hm
        · simp only [hlt, if_false] at hrun
          refine ih (page + 1) _ _ res tr' ?_ hrun
          intro c hc
          rcases List.mem_append.mp hc with hm | hm
          · exact htr1 c hm
          · exact processFiles_no_writes api b h fs c hm

/-- The trace of `callBackend` holds no GitHub write (only the backend post). -/
theorem callBackend_no_writes (api : Api) (q : BackendPayload) :
    ∀ c ∈ (callBackend api q).2, isWriteCall c = false := by
  intro c hc
  unfold callBackend at hc
  cases hu : api.backendUrl with
  | none => simp [hu] at hc
  | some url =>
    simp only [hu] at hc
    by_cases h0 : url = ""
    · simp [h0] at hc
    · simp only [h0, if_false] at hc
      cases hp : api.backendPost q with
      | error e =>
        simp [hp] at hc
        subst hc
        rfl
      | ok data =>
        simp only [hp] at hc
        cases hcm : data.comment with
        | none =>
          simp [hcm] at hc
          subst hc
          rfl
        | some s =>
          simp only [hcm] at hc
          by_cases hs0 : s = "" <;> by_cases hst : isBlank s = true <;>
            simp [hs0, hst] at hc <;> (subst hc; rfl)

/-- If the review handler's body put a comment-creation call in its trace,
then `callBackend` returned a non-null comment for some payload. -/
theorem handleReviewBody_post_needs_comment (api : Api) (ev : ReviewEvent)
    (fuel : Nat) (out : Except Err (Option String)) (tr : List Call)
    (hrun : handleReviewBody api ev fuel = some (out, tr))
    (o r : String) (n : Nat) (b : String)
    (hmem : Call.createComment o r n b ∈ tr) :
    ∃ q s, (callBackend api q).1 = some s := by
  unfold handleReviewBody at hrun
  by_cases hbot : isFromBot ev.sender
  · simp [hbot] at hrun
    obtain ⟨_, h2⟩ := hrun
    subst h2
    simp at hmem
  · simp only [hbot, Bool.false_eq_true, if_false] at hrun
    by_cases hbody : isBlank (ev.review.body.getD "") = true
    · simp [hbody] at hrun
      obtain ⟨_, h2⟩ := hrun
      subst h2
      simp at hmem
    · simp only [hbody, if_false] at hrun
      cases hg : getPrFiles api ev.pr.baseSha ev.pr.headSha fuel with
      | none => simp [hg] at hrun
      | some gr =>
        obtain ⟨gres, gtr⟩ := gr
        have hgtr : ∀ c ∈ gtr, isWriteCall c = false :=
          getPrFilesLoop_no_writes api ev.pr.baseSha ev.pr.headSha fuel 1 [] [] gres gtr
            (by simp) hg
        cases gres with
        | error e =>
          simp [hg] at hrun
          obtain ⟨_, h2⟩ := hrun
          subst h2
          exact absurd (hgtr _ hmem) (by simp [isWriteCall])
        | ok files =>
          simp only [hg] at hrun
          set q := mkReviewPayload ev (ev.review.body.getD "") files with hq
          have hcbtr : ∀ c ∈ (callBackend api q).2, isWriteCall c = false :=
            callBackend_no_writes api q
          cases hcb : (callBackend api q).1 with
          | none =>
            simp only [hcb] at hrun
            simp at hrun
            obtain ⟨_, h2⟩ := hrun
            subst h2
            rcases List.mem_append.mp hmem with hm | hm
            · exact absurd (hgtr _ hm) (by simp [isWriteCall])
            · exact absurd (hcbtr _ hm) (by simp [isWriteCall])
          | some body =>
            exact ⟨q, body, hcb⟩

/-- C4: `callBackend` returns `null` exactly when the backend URL is
unset, the request fails, or the response's `comment` field is missing or
only whitespace; a non-null result is the response's comment verbatim (no
trimming); `callBackend` itself never throws (its result is an `Option`,
never an exception); and a handler whose `callBackend` result is `null`
posts no comment. -/
theorem callBackend_spec (api : Api) (payload : BackendPayload) :
    ((callBackend api payload).1 = none ↔
      (strFalsy api.backendUrl = true ∨
       (∃ e, api.backendPost payload = Except.error e) ∨
       (∃ d, api.backendPost payload = Except.ok d ∧
         (d.comment = none ∨ ∃ c, d.comment = some c ∧ isBlank c = true)))) ∧
    (∀ s, (callBackend api payload).1 = some s →
      ∃ d, api.backendPost payload = Except.ok d ∧ d.comment = some s) ∧
    (∀ (ev : ReviewEvent) (fuel : Nat) (out : Except Err (Option String)) (tr : List Call),
      handleReview api ev fuel = some (out, tr) →
      (∀ q, (callBackend api q).1 = none) →
      ∀ (o r : String) (n : Nat) (b : String), Call.createComment o r n b ∉ tr) := by
  refine ⟨?_, ?_, ?_⟩
  · unfold callBackend
    cases hu : api.backendUrl with
    | none => simp [strFalsy]
    | some url =>
      by_cases h0 : url = ""
      · simp [h0, strFalsy]
      · simp only [h0, if_false]
        cases hp : api.backendPost payload with
        | error e => simp [hp, strFalsy, h0]
        | ok data =>
          cases hcm : data.comment with
          | none => simp [hp, hcm, strFalsy, h0]
          | some s =>
            by_cases hs0 : s = ""
            · subst hs0
              simp [hp, hcm, strFalsy, h0]
              rfl
            · by_cases hst : isBlank s = true <;>
                simp [hp, hcm, strFalsy, h0, hs0, hst]
  · intro s hs
    unfold callBackend at hs
    cases hu : api.backendUrl with
    | none => simp [hu] at hs
    | some url =>
      simp only [hu] at hs
      by_cases h0 : url = ""
      · simp [h0] at hs
      · simp only [h0, if_false] at hs
        cases hp : api.backendPost payload with
        | error e => simp [hp] at hs
        | ok data =>
          simp only [hp] at hs
          cases hcm : data.comment with
          | none => simp [hcm] at hs
          | some c =>
            simp only [hcm] at hs
            by_cases hs0 : c = ""
            · simp [hs0] at hs
            · by_cases hst : isBlank c = true
              · simp [hs0, hst] at hs
              · simp [hs0, hst] at hs
                exact ⟨data, rfl, by rw [hcm, hs]⟩
  · intro ev fuel out tr hrun hnone o r n b hmem
    unfold handleReview at hrun
    cases hb : handleReviewBody api ev fuel with
    | none => simp [hb] at hrun
    | some p =>
      obtain ⟨bout, btr⟩ := p
      simp only [hb, Option.map_some] at hrun
      have htr : tr = btr := by
        cases bout <;> simp at hrun <;> exact hrun.2.symm
      obtain ⟨q, s, hq⟩ := handleReviewBody_post_needs_comment api ev fuel bout btr hb
        o r n b (htr ▸ hmem)
      rw [hnone q] at hq
      cases hq

def userReviewEvent : ReviewEvent :=
  { sender := some { type := some "User", login := some "alice" }
    review := { body := some "Nice work", state := some "approved", userLogin := some "bob" }
    pr := samplePR
    repo := sampleRepo }

def emptyPayload : BackendPayload :=
  mkReviewPayload userReviewEvent "Nice work" []

theorem callBackend_spec_witness :
    (callBackend apiErr emptyPayload).1 = none ∧
    Call.createComment "octo" "demo" 7 "hi" ∉ [Call.listFiles 1] := by
  constructor
  · exact (callBackend_spec apiErr emptyPayload).1.mpr (Or.inl rfl)
  · exact (callBackend_spec apiErr emptyPayload).2.2 userReviewEvent 1 (.ok none)
      [Call.listFiles 1] rfl (fun _ => rfl) "octo" "demo" 7 "hi"

end ContextWizard
